/-
  Verification of the onepiece-card servers.

  Shallow embedding of:
    - src/onpc-proto/server.js  (authoritative mode: GameState, applyAction reducer,
      broadcast/version, rooms map)
    - src/onpc-multi/server.js  (relay mode: roster, role/seat assignment,
      action relay, snapshot push/pull, room garbage collection)

  JS conventions of the embedding:
    - A JS value that may be `undefined`/absent/of the wrong shape is an `Option`.
    - A JS exception (TypeError on property access of undefined, etc.) is
      `Except.error`.  Every throwing path of the source mutates nothing
      observable before the throw, so `Except.error` with the pre-state
      discarded is faithful to observable state.
    - `Math.random()*(i+1)|0` (a uniform index in [0,i]) is embedded as an
      injected entropy stream `e : Nat -> Nat` used as `e i % (i+1)`.
    - `x|0` on an integer is two's-complement wrap to 32 bits (`wrap32`).
    - A JS `Set` of strings (insertion ordered) is a duplicate-free list:
      `add` appends when absent, `delete` filters.
    - A JS `Map` is an association list: `set` replaces in place or appends.
-/
import Mathlib

/-- The two player sides `'A'` and `'B'` of onpc-proto. Any other JS value used
as a player key indexes `undefined` and is embedded as `Option.none` upstream. -/
inductive Player : Type
  | A
  | B
deriving DecidableEq, Repr

/-- A per-side record `{ A: ..., B: ... }` as used throughout onpc-proto's state. -/
structure Pair (α : Type) : Type where
  A : α
  B : α
deriving DecidableEq, Repr

/-- Read the field of a `Pair` selected by a player key (JS `obj[p]`). -/
def Pair.get {α : Type} (x : Pair α) : Player → α
  | Player.A => x.A
  | Player.B => x.B

/-- Write the field of a `Pair` selected by a player key (JS `obj[p] = v`). -/
def Pair.set {α : Type} (x : Pair α) : Player → α → Pair α
  | Player.A, v => { x with A := v }
  | Player.B, v => { x with B := v }

/-- JS `Set.prototype.add` on an insertion-ordered string set. -/
def setAdd (l : List String) (x : String) : List String :=
  if x ∈ l then l else l ++ [x]

/-- JS `Set.prototype.delete` on an insertion-ordered string set. -/
def setDelete (l : List String) (x : String) : List String :=
  l.filter (fun y => y ≠ x)

/-- Two's-complement 32-bit wrap: the value of JS `x|0` on an integer `x`. -/
def wrap32 (x : Int) : Int :=
  (x + 2 ^ 31) % 2 ^ 32 - 2 ^ 31

/-- onpc-proto `clamp(x,min,max) = Math.min(max, Math.max(min, x|0))`
(server.js line 66). -/
def clampInt (x lo hi : Int) : Int :=
  min hi (max lo (wrap32 x))

/-- In-place JS array swap `[arr[i],arr[j]] = [arr[j],arr[i]]`; out-of-range
indices (never hit by the Fisher–Yates loops) leave the list unchanged. -/
def listSwap {α : Type} (l : List α) (i j : Nat) : List α :=
  match l[i]?, l[j]? with
  | some a, some b => (l.set i b).set j a
  | _, _ => l

/-- The Fisher–Yates loop body of onpc-proto's SHUFFLE / MULLIGAN
(`for(let i=arr.length-1;i>0;i--){ const j=(Math.random()*(i+1))|0; swap }`):
`fyAux e l i` runs the loop from index `i` down to `1`. -/
def fyAux {α : Type} (e : Nat → Nat) (l : List α) : Nat → List α
  | 0 => l
  | i + 1 => fyAux e (listSwap l (i + 1) (e (i + 1) % (i + 2))) i

/-- The whole Fisher–Yates shuffle with entropy stream `e`. -/
def fisherYates {α : Type} (e : Nat → Nat) (l : List α) : List α :=
  fyAux e l (l.length - 1)

/-- The per-room authoritative document of onpc-proto (`makeInitialState`'s shape,
server.js lines 14-40).  `revealed.life` / `revealed.deck` are JS Sets embedded as
insertion-ordered duplicate-free lists; `chara` slots and `stage` hold `null`
(`Option.none`) until written (no reducer case writes them). -/
structure GameState : Type where
  version : Nat
  players : List String
  deckImages : Pair (List String)
  handImages : Pair (List String)
  lifeImages : Pair (List String)
  trashImages : Pair (List String)
  deckCounts : Pair Int
  handCounts : Pair Int
  lifeCounts : Pair Int
  trashCounts : Pair Int
  donDeck : Pair Int
  donAct : Pair Int
  donRest : Pair Int
  chara : Pair (List (Option String))
  stage : Pair (Option String)
  revealedLife : Pair (List String)
  revealedDeck : Pair (List String)
deriving DecidableEq, Repr

/-- `deck/player_X/images/image (i+1).png`, the deck entries of `makeInitialState`. -/
def deckImage (side : String) (i : Nat) : String :=
  "deck/player_" ++ side ++ "/images/image (" ++ toString (i + 1) ++ ").png"

/-- onpc-proto `makeInitialState()` (server.js lines 14-40). -/
def makeInitialState : GameState where
  version := 0
  players := ["A", "B"]
  deckImages := ⟨(List.range 50).map (deckImage "A"), (List.range 50).map (deckImage "B")⟩
  handImages := ⟨[], []⟩
  lifeImages := ⟨[], []⟩
  trashImages := ⟨[], []⟩
  deckCounts := ⟨50, 50⟩
  handCounts := ⟨0, 0⟩
  lifeCounts := ⟨0, 0⟩
  trashCounts := ⟨0, 0⟩
  donDeck := ⟨10, 10⟩
  donAct := ⟨0, 0⟩
  donRest := ⟨0, 0⟩
  chara := ⟨List.replicate 5 none, List.replicate 5 none⟩
  stage := ⟨none, none⟩
  revealedLife := ⟨[], []⟩
  revealedDeck := ⟨[], []⟩

/-- An inbound `action` payload of onpc-proto, as an object with optional fields.
`type` is the raw tag string (any JS string).  `player` is `some p` exactly when
the payload's `player` field is the string `'A'` or `'B'` — any other value
indexes the per-side records to `undefined`.  `value : none` stands for an
absent or non-numeric `value` (JS `x|0` coerces it to `0`);
`path` / `cards` are `none` when absent. -/
structure ActionMsg : Type where
  type : String
  player : Option Player := none
  target : Option String := none
  value : Option Int := none
  path : Option String := none
  cards : Option (List String) := none
deriving Repr

/-- `DRAW_TO_HAND` case (server.js lines 72-78): pop the deck's top to the
front of the hand; no-op on an empty deck. -/
def caseDraw (s : GameState) (p : Player) : GameState :=
  match s.deckImages.get p with
  | [] => s
  | top :: rest =>
    { s with deckImages := s.deckImages.set p rest,
             handImages := s.handImages.set p (top :: s.handImages.get p),
             deckCounts := s.deckCounts.set p (s.deckCounts.get p - 1),
             handCounts := s.handCounts.set p (s.handCounts.get p + 1) }

/-- `DECK_TO_LIFE_TOP` case (server.js lines 79-85). -/
def caseDeckLife (s : GameState) (p : Player) : GameState :=
  match s.deckImages.get p with
  | [] => s
  | top :: rest =>
    { s with deckImages := s.deckImages.set p rest,
             lifeImages := s.lifeImages.set p (top :: s.lifeImages.get p),
             deckCounts := s.deckCounts.set p (s.deckCounts.get p - 1),
             lifeCounts := s.lifeCounts.set p (s.lifeCounts.get p + 1) }

/-- `DECK_TO_TRASH` case (server.js lines 86-92). -/
def caseDeckTrash (s : GameState) (p : Player) : GameState :=
  match s.deckImages.get p with
  | [] => s
  | top :: rest =>
    { s with deckImages := s.deckImages.set p rest,
             trashImages := s.trashImages.set p (top :: s.trashImages.get p),
             deckCounts := s.deckCounts.set p (s.deckCounts.get p - 1),
             trashCounts := s.trashCounts.set p (s.trashCounts.get p + 1) }

/-- `LIFE_TO_HAND` case (server.js lines 93-102): also deletes the moved
reference from the side's life reveal-set. -/
def caseLifeHand (s : GameState) (p : Player) : GameState :=
  match s.lifeImages.get p with
  | [] => s
  | top :: rest =>
    { s with lifeImages := s.lifeImages.set p rest,
             handImages := s.handImages.set p (top :: s.handImages.get p),
             lifeCounts := s.lifeCounts.set p (s.lifeCounts.get p - 1),
             handCounts := s.handCounts.set p (s.handCounts.get p + 1),
             revealedLife := s.revealedLife.set p (setDelete (s.revealedLife.get p) top) }

/-- `LIFE_TO_TRASH` case (server.js lines 103-110). -/
def caseLifeTrash (s : GameState) (p : Player) : GameState :=
  match s.lifeImages.get p with
  | [] => s
  | top :: rest =>
    { s with lifeImages := s.lifeImages.set p rest,
             trashImages := s.trashImages.set p (top :: s.trashImages.get p),
             lifeCounts := s.lifeCounts.set p (s.lifeCounts.get p - 1),
             trashCounts := s.trashCounts.set p (s.trashCounts.get p + 1),
             revealedLife := s.revealedLife.set p (setDelete (s.revealedLife.get p) top) }

/-- `DON_SET` case (server.js lines 111-116): pick the sub-pool named by
`target` (anything other than `'deck'`/`'act'` falls through to `donRest`),
and assign `clamp(value, 0, 10)`; an absent or non-numeric `value` is `0`
under `|0`. -/
def caseDonSet (s : GameState) (p : Player) (target : Option String) (value : Option Int) :
    GameState :=
  let v := clampInt (match value with | none => 0 | some x => x) 0 10
  if target = some "deck" then { s with donDeck := s.donDeck.set p v }
  else if target = some "act" then { s with donAct := s.donAct.set p v }
  else { s with donRest := s.donRest.set p v }

/-- The array-valued locations of the document.  These are exactly the values
reachable from the state root by a dot-separated key path for which JS
`Array.isArray` is true: the `players` array, the four zone sequences per side,
and the five-slot board array `chara` per side.  Every other resolvable path
(objects, numbers, strings inside arrays, `null` stage slots, the `revealed`
Sets) is not an array. -/
inductive ArrLoc : Type
  | players
  | deck (p : Player)
  | hand (p : Player)
  | life (p : Player)
  | trash (p : Player)
  | chara (p : Player)
deriving DecidableEq, Repr

/-- Element type of the array at a location (`chara` holds nullable slots). -/
@[reducible] def ArrLoc.elemTy : ArrLoc → Type
  | .chara _ => Option String
  | _ => String

/-- The string key `'A'`/`'B'` as a player side; any other key indexes
`undefined`. -/
def parsePlayer : String → Option Player
  | "A" => some Player.A
  | "B" => some Player.B
  | _ => none

/-- JS `String.prototype.split('.')` on the character list: always at least
one (possibly empty) group; each `'.'` closes the current group.  (Structural
recursion so that concrete paths evaluate inside the kernel.) -/
def splitDots : List Char → List (List Char)
  | [] => [[]]
  | c :: rest =>
    if c = '.' then [] :: splitDots rest
    else
      match splitDots rest with
      | [] => [[c]]
      | g :: gs => (c :: g) :: gs

/-- `path.split('.')` of the SHUFFLE case. -/
def jsSplitDot (s : String) : List String :=
  (splitDots s.data).map List.asString

/-- Resolution of `a.path.split('.').reduce((o,k)=>o?.[k], state)` followed by
the `Array.isArray` test of the SHUFFLE case (server.js lines 119-125):
`some loc` when the key list reaches one of the document's arrays, `none` when
it reaches a non-array value or nothing.  The per-case catch-all is faithful
because no array in the document contains an array (zone entries are strings,
`chara` entries are `null`), so no strictly longer path is ever an array. -/
def resolveArr : List String → Option ArrLoc
  | ["players"] => some ArrLoc.players
  | ["deckImages", k] => (parsePlayer k).map ArrLoc.deck
  | ["handImages", k] => (parsePlayer k).map ArrLoc.hand
  | ["lifeImages", k] => (parsePlayer k).map ArrLoc.life
  | ["trashImages", k] => (parsePlayer k).map ArrLoc.trash
  | ["chara", k] => (parsePlayer k).map ArrLoc.chara
  | _ => none

/-- Read the array at a location. -/
def ArrLoc.read : (loc : ArrLoc) → GameState → List loc.elemTy
  | .players, s => s.players
  | .deck p, s => s.deckImages.get p
  | .hand p, s => s.handImages.get p
  | .life p, s => s.lifeImages.get p
  | .trash p, s => s.trashImages.get p
  | .chara p, s => s.chara.get p

/-- Write the array at a location (the in-place mutation of that one array). -/
def ArrLoc.write : (loc : ArrLoc) → GameState → List loc.elemTy → GameState
  | .players, s, l => { s with players := l }
  | .deck p, s, l => { s with deckImages := s.deckImages.set p l }
  | .hand p, s, l => { s with handImages := s.handImages.set p l }
  | .life p, s, l => { s with lifeImages := s.lifeImages.set p l }
  | .trash p, s, l => { s with trashImages := s.trashImages.set p l }
  | .chara p, s, l => { s with chara := s.chara.set p l }

/-- `SHUFFLE` case (server.js lines 119-125): resolve the path; if it is an
array, Fisher–Yates it in place, else do nothing. -/
def caseShuffle (e : Nat → Nat) (s : GameState) (path : String) : GameState :=
  match resolveArr (jsSplitDot path) with
  | some loc => loc.write s (fisherYates e (loc.read s))
  | none => s

/-- The draw loop of `MULLIGAN` (server.js lines 135-139):
`for(let i=0;i<Math.min(5, deck.length); i++)` — note the bound re-reads the
shrinking `deck.length` on every iteration. -/
def mullDrawLoop (p : Player) (i : Nat) (s : GameState) : GameState :=
  if h : i < min 5 (s.deckImages.get p).length then
    match s.deckImages.get p with
    | [] => s
    | top :: rest =>
      mullDrawLoop p (i + 1)
        { s with deckImages := s.deckImages.set p rest,
                 handImages := s.handImages.set p (top :: s.handImages.get p),
                 deckCounts := s.deckCounts.set p (s.deckCounts.get p - 1),
                 handCounts := s.handCounts.set p (s.handCounts.get p + 1) }
  else s
termination_by 5 - i
decreasing_by
  have : i < 5 := lt_of_lt_of_le h (min_le_left 5 _)
  omega

/-- `MULLIGAN` case (server.js lines 127-141): move the whole hand to the
bottom of the deck (adjusting both mirrored counts per card), Fisher–Yates the
deck, then run the draw loop. -/
def caseMulligan (e : Nat → Nat) (s : GameState) (p : Player) : GameState :=
  let hand := s.handImages.get p
  let s1 := { s with deckImages := s.deckImages.set p (s.deckImages.get p ++ hand),
                     handImages := s.handImages.set p [],
                     handCounts := s.handCounts.set p (s.handCounts.get p - hand.length),
                     deckCounts := s.deckCounts.set p (s.deckCounts.get p + hand.length) }
  let s2 := { s1 with deckImages := s1.deckImages.set p (fisherYates e (s1.deckImages.get p)) }
  mullDrawLoop p 0 s2

/-- `REFRESH` case (server.js lines 144-158): zero the rested pool, move
`min(2, donDeck)` from the deck pool into the active pool through
`clamp(_, 0, 10)`, then draw one card if the deck is non-empty. -/
def caseRefresh (s : GameState) (p : Player) : GameState :=
  let s1 := { s with donRest := s.donRest.set p 0 }
  let mv := min 2 (s1.donDeck.get p)
  let s2 := { s1 with donDeck := s1.donDeck.set p (s1.donDeck.get p - mv),
                      donAct := s1.donAct.set p (clampInt (s1.donAct.get p + mv) 0 10) }
  match s2.deckImages.get p with
  | [] => s2
  | top :: rest =>
    { s2 with deckImages := s2.deckImages.set p rest,
              handImages := s2.handImages.set p (top :: s2.handImages.get p),
              deckCounts := s2.deckCounts.set p (s2.deckCounts.get p - 1),
              handCounts := s2.handCounts.set p (s2.handCounts.get p + 1) }

/-- `REVEAL_LIFE` case (server.js lines 160-165): union the card list into the
side's life reveal-set. -/
def caseReveal (s : GameState) (p : Player) (cards : List String) : GameState :=
  { s with revealedLife := s.revealedLife.set p (cards.foldl setAdd (s.revealedLife.get p)) }

/-- onpc-proto `applyAction(state, a)` (server.js lines 68-183), with the
injected entropy stream `e` standing for `Math.random`.  `Except.error`
marks the throwing paths: an invalid/absent `player` makes
`state.xxxImages[p]` `undefined` and the subsequent `.length`/`.shift` throw
(for `DON_SET` the write to `table[p]` merely creates a stray property, no
throw); an absent `path` throws at `a.path.split`; an absent `cards` list
throws at `cards.forEach`, and a non-empty `cards` with an invalid player
throws at `set.add` on the first iteration (an empty list never runs the
callback, so it does not throw).  Unknown tags hit `default: break`. -/
def applyAction (e : Nat → Nat) (s : GameState) (a : ActionMsg) : Except String GameState :=
  if a.type = "DRAW_TO_HAND" then
    match a.player with
    | none => Except.error "TypeError"
    | some p => Except.ok (caseDraw s p)
  else if a.type = "DECK_TO_LIFE_TOP" then
    match a.player with
    | none => Except.error "TypeError"
    | some p => Except.ok (caseDeckLife s p)
  else if a.type = "DECK_TO_TRASH" then
    match a.player with
    | none => Except.error "TypeError"
    | some p => Except.ok (caseDeckTrash s p)
  else if a.type = "LIFE_TO_HAND" then
    match a.player with
    | none => Except.error "TypeError"
    | some p => Except.ok (caseLifeHand s p)
  else if a.type = "LIFE_TO_TRASH" then
    match a.player with
    | none => Except.error "TypeError"
    | some p => Except.ok (caseLifeTrash s p)
  else if a.type = "DON_SET" then
    match a.player with
    | none => Except.ok s
    | some p => Except.ok (caseDonSet s p a.target a.value)
  else if a.type = "SHUFFLE" then
    match a.path with
    | none => Except.error "TypeError"
    | some path => Except.ok (caseShuffle e s path)
  else if a.type = "MULLIGAN" then
    match a.player with
    | none => Except.error "TypeError"
    | some p => Except.ok (caseMulligan e s p)
  else if a.type = "REFRESH" then
    match a.player with
    | none => Except.error "TypeError"
    | some p => Except.ok (caseRefresh s p)
  else if a.type = "REVEAL_LIFE" then
    match a.cards with
    | none => Except.error "TypeError"
    | some cs =>
      match a.player with
      | some p => Except.ok (caseReveal s p cs)
      | none => if cs = [] then Except.ok s else Except.error "TypeError"
  else Except.ok s

/-- The process-wide `rooms` Map of onpc-proto (`roomId -> state`), as a
lookup function.  onpc-proto never deletes entries. -/
def ProtoReg : Type :=
  String → Option GameState

/-- Point update of the proto rooms map. -/
def ProtoReg.update (R : ProtoReg) (r : String) (v : Option GameState) : ProtoReg :=
  fun x => if x = r then v else R x

/-- onpc-proto `getRoom(roomId)` (server.js lines 44-47): create-on-miss, then
return the stored state.  Returns the possibly-extended map with the room's
state. -/
def protoGetRoom (R : ProtoReg) (roomId : String) : ProtoReg × GameState :=
  match R roomId with
  | some s => (R, s)
  | none => (R.update roomId (some makeInitialState), makeInitialState)

/-- The `connection` handler's state effect in onpc-proto (server.js lines
186-204): `getRoom('game-1')` for the initial snapshot emit; the emit itself
does not touch `version`. -/
def protoConnect (R : ProtoReg) : ProtoReg :=
  (protoGetRoom R "game-1").1

/-- The `action` handler of onpc-proto (server.js lines 186-190):
`applyAction(state, a)` then `broadcast(roomId)`, and `broadcast` does
`s.version++` before emitting (lines 49-61).  When `applyAction` throws,
`broadcast` is never reached and the observable state is unchanged. -/
def protoAction (e : Nat → Nat) (R : ProtoReg) (a : ActionMsg) : ProtoReg :=
  let pr := protoGetRoom R "game-1"
  match applyAction e pr.2 a with
  | Except.ok s2 => pr.1.update "game-1" (some { s2 with version := s2.version + 1 })
  | Except.error _ => pr.1

/-- An inbound event of the onpc-proto server. -/
inductive PEvent : Type
  | connect
  | act (a : ActionMsg) (e : Nat → Nat)

/-- One event-loop step of onpc-proto. -/
def protoStep (R : ProtoReg) : PEvent → ProtoReg
  | PEvent.connect => protoConnect R
  | PEvent.act a e => protoAction e R a

/-- Run the onpc-proto event loop over a list of events. -/
def protoRun (R : ProtoReg) : List PEvent → ProtoReg
  | [] => R
  | ev :: rest => protoRun (protoStep R ev) rest

/-- Roles of onpc-multi participants (`'PLAYER'` / `'SPEC'`; the spec calls the
latter SPECTATOR). -/
inductive Role : Type
  | PLAYER
  | SPEC
deriving DecidableEq, Repr

/-- A roster entry of onpc-multi (`{name, role, seat}`). -/
structure Participant : Type where
  name : String
  role : Role
  seat : String
deriving DecidableEq, Repr

/-- A room record of onpc-multi (`{ roster, state, nextSpecNo }`); the relayed
document is an opaque blob. -/
structure RoomInfo : Type where
  roster : List (String × Participant)
  state : Option String
  nextSpecNo : Nat
deriving DecidableEq, Repr

/-- onpc-multi `createRoomInfo()` (server.js line 113). -/
def createRoomInfo : RoomInfo :=
  { roster := [], state := none, nextSpecNo := 1 }

/-- JS `Map.prototype.set` on the roster: replace in place, else append. -/
def rosterSet (ros : List (String × Participant)) (sid : String) (p : Participant) :
    List (String × Participant) :=
  if ros.any (fun e => e.1 = sid) then
    ros.map (fun e => if e.1 = sid then (sid, p) else e)
  else ros ++ [(sid, p)]

/-- JS `Map.prototype.get` on the roster. -/
def rosterGet (ros : List (String × Participant)) (sid : String) : Option Participant :=
  (ros.find? (fun e => e.1 = sid)).map Prod.snd

/-- onpc-multi `getPlayers(info)` (server.js lines 116-118). -/
def getPlayers (info : RoomInfo) : List Participant :=
  (info.roster.map Prod.snd).filter (fun p => p.role = Role.PLAYER)

/-- onpc-multi `countSpectators(info)` (server.js lines 119-121). -/
def countSpectators (info : RoomInfo) : Nat :=
  ((info.roster.map Prod.snd).filter (fun p => p.role = Role.SPEC)).length

/-- The environment-sourced spectator cap: `none` is the default
`MAX_SPECTATORS = Infinity` (a `>=` comparison against `Infinity` — or against
the `NaN` of an unparsable setting — is always false). -/
structure Cfg : Type where
  maxSpec : Option Nat
deriving DecidableEq, Repr

/-- `countSpectators(info) >= MAX_SPECTATORS` (server.js line 51). -/
def specFull (cfg : Cfg) (info : RoomInfo) : Bool :=
  match cfg.maxSpec with
  | none => false
  | some m => decide (m ≤ countSpectators info)

/-- The process-wide `roomState` Map of onpc-multi, as a lookup function. -/
def MultiReg : Type :=
  String → Option RoomInfo

/-- Point update / removal in the multi rooms map. -/
def MultiReg.update (R : MultiReg) (r : String) (v : Option RoomInfo) : MultiReg :=
  fun x => if x = r then v else R x

/-- Observable emissions of the onpc-multi handlers. -/
inductive MOut : Type
  | helloTo (sid room name : String) (role : Role) (seat : String)
  | rosterTo (room : String) (roster : List (String × Participant))
  | spectatorsFullTo (sid room : String)
  | disconnectSocket (sid : String)
  | snapshotApplyTo (sid snap : String)
  | actionTo (targets : List String) (payload : String) (frm : String) (ts : Nat)
  | snapshotApplyMany (targets : List String) (snap : String)
  | ackTo (sid : String) (ok : Bool) (reason : Option String)
deriving DecidableEq, Repr

/-- Inbound events of the onpc-multi server.  `room` on the non-connect
events is the `roomId` the socket bound at connect time (the handlers close
over it); `hasAck` is whether the client passed an acknowledgement callback;
`now` is the value `Date.now()` returns during the handler. -/
inductive MEvent : Type
  | connect (sid : String) (roomQ nameQ roleQ : Option String)
  | act (sid room payload : String) (hasAck : Bool) (now : Nat)
  | snapPush (sid room snap : String)
  | snapPull (sid room : String)
  | disconnect (sid room : String)

/-- `String(name || 'anon')` with the destructuring default `name = 'anon'`
(server.js line 37): an absent or empty (falsy) name query becomes `'anon'`. -/
def resolveName (nameQ : Option String) : String :=
  match nameQ with
  | none => "anon"
  | some n => if n = "" then "anon" else n

/-- The onpc-multi `connection` handler (server.js lines 36-74): default the
query fields, create the room on first reference, decide role (explicit
`'spec'` request, or both player seats taken), refuse an over-cap spectator
BEFORE registering it (the freshly created room, if any, stays), otherwise
assign the seat (P1 if unused else P2; `SPEC<nextSpecNo++>`), register in the
roster, greet, publish the roster, and push the held snapshot to late joiners. -/
def handleConnect (cfg : Cfg) (R : MultiReg) (sid : String) (roomQ nameQ roleQ : Option String) :
    MultiReg × List MOut :=
  let roomId := roomQ.getD "dev"
  let name := resolveName nameQ
  let R1 := match R roomId with
            | none => R.update roomId (some createRoomInfo)
            | some _ => R
  let info := (R1 roomId).getD createRoomInfo
  let currentPlayers := getPlayers info
  let role := if roleQ = some "spec" ∨ 2 ≤ currentPlayers.length then Role.SPEC else Role.PLAYER
  if role = Role.SPEC ∧ specFull cfg info then
    (R1, [MOut.spectatorsFullTo sid roomId, MOut.disconnectSocket sid])
  else
    let seat := if role = Role.PLAYER then
                  (if (currentPlayers.map (fun p => p.seat)).contains "P1" then "P2" else "P1")
                else "SPEC" ++ toString info.nextSpecNo
    let info2 := { info with
                   roster := rosterSet info.roster sid ⟨name, role, seat⟩,
                   nextSpecNo := if role = Role.PLAYER then info.nextSpecNo
                                 else info.nextSpecNo + 1 }
    let R2 := R1.update roomId (some info2)
    (R2, [MOut.helloTo sid roomId name role seat, MOut.rosterTo roomId info2.roster] ++
         (match info2.state with
          | some st => [MOut.snapshotApplyTo sid st]
          | none => []))

/-- The onpc-multi `action` handler (server.js lines 77-85): deny non-players
(`{ok:false, reason:'spectator'}`), otherwise enrich the payload with
`_from`/`_ts` and `io.to(roomId).emit(...)` — every socket in the room,
the sender included — then `ack({ok:true})`. -/
def handleMultiAction (R : MultiReg) (sid room payload : String) (hasAck : Bool) (now : Nat) :
    MultiReg × List MOut :=
  match R room with
  | none => (R, [])
  | some info =>
    match rosterGet info.roster sid with
    | some me =>
      if me.role = Role.PLAYER then
        (R, [MOut.actionTo (info.roster.map Prod.fst) payload sid now] ++
            (if hasAck then [MOut.ackTo sid true none] else []))
      else (R, if hasAck then [MOut.ackTo sid false (some "spectator")] else [])
    | none => (R, if hasAck then [MOut.ackTo sid false (some "spectator")] else [])

/-- The onpc-multi `snapshot:push` handler (server.js lines 88-93): silently
ignore non-players; otherwise store the blob and `socket.to(roomId)`-broadcast
it (everyone in the room but the sender). -/
def handleSnapPush (R : MultiReg) (sid room snap : String) : MultiReg × List MOut :=
  match R room with
  | none => (R, [])
  | some info =>
    match rosterGet info.roster sid with
    | some me =>
      if me.role = Role.PLAYER then
        (R.update room (some { info with state := some snap }),
         [MOut.snapshotApplyMany ((info.roster.map Prod.fst).filter (fun x => x ≠ sid)) snap])
      else (R, [])
    | none => (R, [])

/-- The onpc-multi `snapshot:pull` handler (server.js lines 96-98). -/
def handleSnapPull (R : MultiReg) (sid room : String) : MultiReg × List MOut :=
  match R room with
  | none => (R, [])
  | some info =>
    match info.state with
    | some st => (R, [MOut.snapshotApplyTo sid st])
    | none => (R, [])

/-- The onpc-multi `disconnect` handler (server.js lines 101-107): a missing
room is already-cleaned-up; otherwise drop the entry, publish the roster, and
delete the room when the roster became empty. -/
def handleDisconnect (R : MultiReg) (sid room : String) : MultiReg × List MOut :=
  match R room with
  | none => (R, [])
  | some info =>
    let info2 := { info with roster := info.roster.filter (fun e => e.1 ≠ sid) }
    let R2 := if info2.roster.isEmpty then R.update room none else R.update room (some info2)
    (R2, [MOut.rosterTo room info2.roster])

/-- One event-loop step of onpc-multi. -/
def mstep (cfg : Cfg) (R : MultiReg) : MEvent → MultiReg × List MOut
  | MEvent.connect sid roomQ nameQ roleQ => handleConnect cfg R sid roomQ nameQ roleQ
  | MEvent.act sid room payload hasAck now => handleMultiAction R sid room payload hasAck now
  | MEvent.snapPush sid room snap => handleSnapPush R sid room snap
  | MEvent.snapPull sid room => handleSnapPull R sid room
  | MEvent.disconnect sid room => handleDisconnect R sid room

/-- Run the onpc-multi event loop, keeping only the registry. -/
def mrun (cfg : Cfg) (R : MultiReg) : List MEvent → MultiReg
  | [] => R
  | ev :: rest => mrun cfg (mstep cfg R ev).1 rest

/-- The registry of a freshly started process: no rooms. -/
def emptyMultiReg : MultiReg :=
  fun _ => none

/-- The claimed registry invariant: every room present in the registry has a
non-empty roster. -/
def roomsNonempty (R : MultiReg) : Prop :=
  ∀ r info, R r = some info → info.roster ≠ []

/-- The action tags onpc-proto's reducer switch recognizes (every other tag
falls through to `default: break`). -/
def knownTypes : List String :=
  ["DRAW_TO_HAND", "DECK_TO_LIFE_TOP", "DECK_TO_TRASH", "LIFE_TO_HAND", "LIFE_TO_TRASH",
   "DON_SET", "SHUFFLE", "MULLIGAN", "REFRESH", "REVEAL_LIFE"]

/-- A move-top style payload: a tag plus a valid player side. -/
def moveAct (ty : String) (p : Player) : ActionMsg :=
  { type := ty, player := some p }

/-- The payloads the reducer processes without throwing, mirroring
`applyAction`'s branch structure: zone moves, `MULLIGAN` and `REFRESH` need a
valid `player`; `SHUFFLE` needs a present `path`; `REVEAL_LIFE` needs a
present card list and, when that list is non-empty, a valid `player`;
`DON_SET` and unknown tags never throw. -/
def wfAction (a : ActionMsg) : Bool :=
  if a.type = "DRAW_TO_HAND" then a.player.isSome
  else if a.type = "DECK_TO_LIFE_TOP" then a.player.isSome
  else if a.type = "DECK_TO_TRASH" then a.player.isSome
  else if a.type = "LIFE_TO_HAND" then a.player.isSome
  else if a.type = "LIFE_TO_TRASH" then a.player.isSome
  else if a.type = "DON_SET" then true
  else if a.type = "SHUFFLE" then a.path.isSome
  else if a.type = "MULLIGAN" then a.player.isSome
  else if a.type = "REFRESH" then a.player.isSome
  else if a.type = "REVEAL_LIFE" then
    match a.cards with
    | none => false
    | some cs => a.player.isSome || decide (cs = [])
  else true

/-- Constant entropy stream, used for concrete evaluations. -/
def entropy0 : Nat → Nat := fun _ => 0

/-- A reachable document (initial state after `DON_SET act=9` and
`DON_SET deck=2` for side A) in which A's active pool is one unit below its
ceiling while two units remain in reserve. -/
def refreshCexState : GameState :=
  { makeInitialState with donAct := ⟨9, 0⟩, donDeck := ⟨2, 10⟩ }

/-- A small document for concrete move-top evaluations: side A has a two-card
deck and a two-card life zone whose top card is revealed; side B has an empty
deck. -/
def moveCexState : GameState :=
  { makeInitialState with
      deckImages := ⟨["d1", "d2"], []⟩, deckCounts := ⟨2, 0⟩,
      lifeImages := ⟨["x", "y"], []⟩, lifeCounts := ⟨2, 0⟩,
      revealedLife := ⟨["x"], []⟩ }

/-- A relay room `dev` with two seated players `s1`/`s2`. -/
def relayCexReg : MultiReg :=
  fun x =>
    if x = "dev" then
      some { roster := [("s1", ⟨"a", Role.PLAYER, "P1"⟩), ("s2", ⟨"b", Role.PLAYER, "P2"⟩)],
             state := none, nextSpecNo := 1 }
    else none

/-- A relay room `dev` holding a single spectator `s1`. -/
def specCexReg : MultiReg :=
  fun x =>
    if x = "dev" then
      some { roster := [("s1", ⟨"a", Role.SPEC, "SPEC1"⟩)], state := none, nextSpecNo := 2 }
    else none

/-- The pool effect of `REFRESH` as the code computes it: rested zeroed,
`mv = min(2, reserve)` taken out of the reserve pool, and the active pool set
to `clamp(active + mv, 0, 10)` — `mv` is clamped to reserve availability but
not to the active ceiling, so any part of `mv` above the ceiling vanishes. -/
def refreshExpected (s : GameState) (p : Player) : GameState :=
  { s with donRest := s.donRest.set p 0,
           donDeck := s.donDeck.set p (s.donDeck.get p - min 2 (s.donDeck.get p)),
           donAct := s.donAct.set p (clampInt (s.donAct.get p + min 2 (s.donDeck.get p)) 0 10) }

theorem Pair.get_set {α : Type} (x : Pair α) (p q : Player) (v : α) :
    (x.set p v).get q = if q = p then v else x.get q := by
  cases p <;> cases q <;> simp [Pair.get, Pair.set]

theorem Pair.get_set_self {α : Type} (x : Pair α) (p : Player) (v : α) :
    (x.set p v).get p = v := by
  cases p <;> simp [Pair.get, Pair.set]

theorem Pair.get_set_ne {α : Type} (x : Pair α) (p q : Player) (v : α) (h : q ≠ p) :
    (x.set p v).get q = x.get q := by
  cases p <;> cases q <;> simp_all [Pair.get, Pair.set]

theorem cons_set_perm {α : Type} (xs : List α) (x : α) :
    ∀ (m : Nat) (h : m < xs.length), (xs.get ⟨m, h⟩ :: xs.set m x).Perm (x :: xs) := by
  induction xs with
  | nil => intro m h; simp at h
  | cons y ys ih =>
    intro m h
    cases m with
    | zero => simpa [List.get, List.set] using List.Perm.swap x y ys
    | succ k =>
      have hk : k < ys.length := by simpa using Nat.lt_of_succ_lt_succ h
      have h1 : (ys.get ⟨k, hk⟩ :: y :: ys.set k x).Perm (y :: ys.get ⟨k, hk⟩ :: ys.set k x) :=
        List.Perm.swap y (ys.get ⟨k, hk⟩) (ys.set k x)
      have h2 : (y :: ys.get ⟨k, hk⟩ :: ys.set k x).Perm (y :: x :: ys) :=
        (ih k hk).cons y
      have h3 : (y :: x :: ys).Perm (x :: y :: ys) := List.Perm.swap x y ys
      simpa [List.get, List.set] using (h1.trans h2).trans h3

theorem set_set_perm {α : Type} :
    ∀ (l : List α) (i j : Nat) (hi : i < l.length) (hj : j < l.length),
      ((l.set i (l.get ⟨j, hj⟩)).set j (l.get ⟨i, hi⟩)).Perm l := by
  intro l
  induction l with
  | nil => intro i j hi hj; simp at hi
  | cons y ys ih =>
    intro i j hi hj
    cases i with
    | zero =>
      cases j with
      | zero => simp [List.set]
      | succ m =>
        have hm : m < ys.length := by simpa using Nat.lt_of_succ_lt_succ hj
        simpa [List.get, List.set] using cons_set_perm ys y m hm
    | succ n =>
      have hn : n < ys.length := by simpa using Nat.lt_of_succ_lt_succ hi
      cases j with
      | zero =>
        simpa [List.get, List.set] using cons_set_perm ys y n hn
      | succ m =>
        have hm : m < ys.length := by simpa using Nat.lt_of_succ_lt_succ hj
        simpa [List.get, List.set] using (ih n m hn hm).cons y

theorem listSwap_perm {α : Type} (l : List α) (i j : Nat) : (listSwap l i j).Perm l := by
  rcases hi : l[i]? with _ | a
  · unfold listSwap
    rw [hi]
  · rcases hj : l[j]? with _ | b
    · unfold listSwap
      rw [hi, hj]
    · have hi' : i < l.length := by
        by_contra hc
        rw [List.getElem?_eq_none (Nat.le_of_not_lt hc)] at hi
        exact Option.noConfusion hi
      have hj' : j < l.length := by
        by_contra hc
        rw [List.getElem?_eq_none (Nat.le_of_not_lt hc)] at hj
        exact Option.noConfusion hj
      have ha : a = l.get ⟨i, hi'⟩ := by
        rw [List.getElem?_eq_getElem hi'] at hi
        simpa [List.get] using (Option.some.inj hi).symm
      have hb : b = l.get ⟨j, hj'⟩ := by
        rw [List.getElem?_eq_getElem hj'] at hj
        simpa [List.get] using (Option.some.inj hj).symm
      unfold listSwap
      rw [hi, hj, ha, hb]
      exact set_set_perm l i j hi' hj'

theorem fyAux_perm {α : Type} (e : Nat → Nat) :
    ∀ (i : Nat) (l : List α), (fyAux e l i).Perm l := by
  intro i
  induction i with
  | zero => intro l; simp [fyAux]
  | succ k ih =>
    intro l
    exact (ih _).trans (listSwap_perm l (k + 1) (e (k + 1) % (k + 2)))

theorem fisherYates_perm {α : Type} (e : Nat → Nat) (l : List α) :
    (fisherYates e l).Perm l :=
  fyAux_perm e (l.length - 1) l

set_option maxHeartbeats 1000000 in
theorem applyAction_version (e : Nat → Nat) (s : GameState) (a : ActionMsg) :
    ∀ s2, applyAction e s a = Except.ok s2 → s2.version = s.version := by
  have hdraw : ∀ p, (caseDraw s p).version = s.version := by
    intro p; unfold caseDraw; cases s.deckImages.get p <;> rfl
  have hdl : ∀ p, (caseDeckLife s p).version = s.version := by
    intro p; unfold caseDeckLife; cases s.deckImages.get p <;> rfl
  have hdt : ∀ p, (caseDeckTrash s p).version = s.version := by
    intro p; unfold caseDeckTrash; cases s.deckImages.get p <;> rfl
  have hlh : ∀ p, (caseLifeHand s p).version = s.version := by
    intro p; unfold caseLifeHand; cases s.lifeImages.get p <;> rfl
  have hlt : ∀ p, (caseLifeTrash s p).version = s.version := by
    intro p; unfold caseLifeTrash; cases s.lifeImages.get p <;> rfl
  have hdon : ∀ p, (caseDonSet s p a.target a.value).version = s.version := by
    intro p
    simp only [caseDonSet]
    split_ifs <;> rfl
  have hshuf : ∀ path, (caseShuffle e s path).version = s.version := by
    intro path; unfold caseShuffle
    rcases resolveArr (jsSplitDot path) with _ | loc
    · rfl
    · cases loc <;> rfl
  have hloop : ∀ (k i : Nat), 5 - i ≤ k → ∀ (st : GameState) (p : Player),
      (mullDrawLoop p i st).version = st.version := by
    intro k
    induction k with
    | zero =>
      intro i hi st p
      unfold mullDrawLoop
      split
      · rename_i h
        have h5 : i < 5 := lt_of_lt_of_le h (min_le_left 5 _)
        exact absurd h5 (by omega)
      · rfl
    | succ k ih =>
      intro i hi st p
      unfold mullDrawLoop
      split
      · rename_i h
        have h5 : i < 5 := lt_of_lt_of_le h (min_le_left 5 _)
        rcases hd : st.deckImages.get p with _ | ⟨top, rest⟩
        · simp only [hd]
        · simp only [hd]
          rw [ih (i + 1) (by omega)]
      · rfl
  have hmul : ∀ p, (caseMulligan e s p).version = s.version := by
    intro p; unfold caseMulligan
    rw [hloop 5 0 (by omega)]
  have href : ∀ p, (caseRefresh s p).version = s.version := by
    intro p
    simp only [caseRefresh]
    split <;> rfl
  have hrev : ∀ p cs, (caseReveal s p cs).version = s.version := by
    intro p cs; rfl
  intro s2 h2
  unfold applyAction at h2
  repeat' split at h2
  all_goals first
    | exact Except.noConfusion h2
    | (cases h2; first
        | rfl
        | exact hdraw _ | exact hdl _ | exact hdt _ | exact hlh _ | exact hlt _
        | exact hdon _ | exact hshuf _ | exact hmul _ | exact href _ | exact hrev _ _)

theorem protoReg_update_self (R : ProtoReg) (r : String) (v : Option GameState) :
    (R.update r v) r = v := by
  simp [ProtoReg.update]

theorem protoReg_update_ne (R : ProtoReg) (r : String) (v : Option GameState) (x : String)
    (h : x ≠ r) : (R.update r v) x = R x := by
  simp [ProtoReg.update, h]

theorem multiReg_update_self (R : MultiReg) (r : String) (v : Option RoomInfo) :
    (R.update r v) r = v := by
  simp [MultiReg.update]

theorem multiReg_update_ne (R : MultiReg) (r : String) (v : Option RoomInfo) (x : String)
    (h : x ≠ r) : (R.update r v) x = R x := by
  simp [MultiReg.update, h]

theorem protoGetRoom_fst_self (R : ProtoReg) (r : String) :
    (protoGetRoom R r).1 r = some (protoGetRoom R r).2 := by
  unfold protoGetRoom
  rcases h : R r with _ | s <;> simp [h, ProtoReg.update]

theorem protoGetRoom_of_some (R : ProtoReg) (r : String) (s : GameState) (h : R r = some s) :
    protoGetRoom R r = (R, s) := by
  unfold protoGetRoom
  rw [h]

theorem protoGetRoom_fst_ne (R : ProtoReg) (r x : String) (h : x ≠ r) :
    (protoGetRoom R r).1 x = R x := by
  unfold protoGetRoom
  rcases hg : R r with _ | s
  · simp [ProtoReg.update, h]
  · rfl

/-- When the reducer throws, `broadcast` is never reached: the handler leaves
the map as `getRoom` left it. -/
theorem protoAction_eq_of_err (e : Nat → Nat) (R : ProtoReg) (a : ActionMsg) (msg : String)
    (h : applyAction e (protoGetRoom R "game-1").2 a = Except.error msg) :
    protoAction e R a = (protoGetRoom R "game-1").1 := by
  simp only [protoAction]
  rw [h]

/-- When the reducer returns, `broadcast` stores its result with `version`
incremented. -/
theorem protoAction_eq_of_ok (e : Nat → Nat) (R : ProtoReg) (a : ActionMsg) (s2 : GameState)
    (h : applyAction e (protoGetRoom R "game-1").2 a = Except.ok s2) :
    protoAction e R a =
      (protoGetRoom R "game-1").1.update "game-1"
        (some { s2 with version := s2.version + 1 }) := by
  simp only [protoAction]
  rw [h]

/-- Shared accounting for an accepted action in onpc-proto: the stored room
after the handler is the reducer result with `version` bumped, and the bump is
exactly one over the pre-handler version. -/
theorem protoAction_lookup_ok (e : Nat → Nat) (R : ProtoReg) (a : ActionMsg) (s2 : GameState)
    (h : applyAction e (protoGetRoom R "game-1").2 a = Except.ok s2) :
    (protoAction e R a) "game-1" =
      some { s2 with version := (protoGetRoom R "game-1").2.version + 1 } := by
  have hv : s2.version = (protoGetRoom R "game-1").2.version :=
    applyAction_version e (protoGetRoom R "game-1").2 a s2 h
  rw [protoAction_eq_of_ok e R a s2 h, protoReg_update_self, hv]

theorem protoAction_lookup_ne (e : Nat → Nat) (R : ProtoReg) (a : ActionMsg) (x : String)
    (h : x ≠ "game-1") : (protoAction e R a) x = R x := by
  rcases ha : applyAction e (protoGetRoom R "game-1").2 a with msg | s2
  · rw [protoAction_eq_of_err e R a msg ha, protoGetRoom_fst_ne _ _ _ h]
  · rw [protoAction_eq_of_ok e R a s2 ha, protoReg_update_ne _ _ _ _ h,
      protoGetRoom_fst_ne _ _ _ h]

/-- Per-step version monotonicity / room persistence in onpc-proto: an
existing room survives every event with a version at least as large. -/
theorem protoStep_mono (R : ProtoReg) (ev : PEvent) (r : String) (s0 : GameState)
    (h : R r = some s0) :
    ∃ s1, (protoStep R ev) r = some s1 ∧ s0.version ≤ s1.version := by
  cases ev with
  | connect =>
    refine ⟨s0, ?_, le_refl _⟩
    simp only [protoStep, protoConnect]
    by_cases hr : r = "game-1"
    · subst hr
      rw [protoGetRoom_of_some R _ s0 h]
      exact h
    · rw [protoGetRoom_fst_ne _ _ _ hr]
      exact h
  | act a e =>
    simp only [protoStep]
    by_cases hr : r = "game-1"
    · subst hr
      rcases ha : applyAction e (protoGetRoom R "game-1").2 a with msg | s2
      · refine ⟨s0, ?_, le_refl _⟩
        rw [protoAction_eq_of_err e R a msg ha, protoGetRoom_of_some R _ s0 h]
        exact h
      · refine ⟨{ s2 with version := (protoGetRoom R "game-1").2.version + 1 },
          protoAction_lookup_ok e R a s2 ha, ?_⟩
        have h2 : (protoGetRoom R "game-1").2 = s0 := by
          rw [protoGetRoom_of_some R _ s0 h]
        rw [h2]
        exact Nat.le_succ _
    · refine ⟨s0, ?_, le_refl _⟩
      rw [protoAction_lookup_ne e R a r hr]
      exact h

/-- Trace-level version monotonicity in onpc-proto. -/
theorem protoRun_mono (evs : List PEvent) :
    ∀ (R : ProtoReg) (r : String) (s0 : GameState), R r = some s0 →
      ∃ s1, (protoRun R evs) r = some s1 ∧ s0.version ≤ s1.version := by
  induction evs with
  | nil => intro R r s0 h; exact ⟨s0, h, le_refl _⟩
  | cons ev rest ih =>
    intro R r s0 h
    obtain ⟨s1, h1, hv1⟩ := protoStep_mono R ev r s0 h
    obtain ⟨s2, h2, hv2⟩ := ih (protoStep R ev) r s1 h1
    exact ⟨s2, h2, le_trans hv1 hv2⟩

theorem rosterSet_ne_nil (ros : List (String × Participant)) (sid : String) (p : Participant) :
    rosterSet ros sid p ≠ [] := by
  unfold rosterSet
  cases ros with
  | nil => simp
  | cons hd tl => split <;> simp

theorem specFull_none (cfg : Cfg) (h : cfg.maxSpec = none) (info : RoomInfo) :
    specFull cfg info = false := by
  simp [specFull, h]

theorem handleConnect_preserves (cfg : Cfg) (R : MultiReg) (sid : String)
    (roomQ nameQ roleQ : Option String) (hcfg : cfg.maxSpec = none)
    (hinv : roomsNonempty R) :
    roomsNonempty (handleConnect cfg R sid roomQ nameQ roleQ).1 := by
  intro r info hlook
  rcases hR : R (roomQ.getD "dev") with _ | info0 <;>
    simp only [handleConnect, hR, specFull_none cfg hcfg, Bool.false_eq_true, and_false,
      if_false] at hlook <;>
    by_cases hr : r = roomQ.getD "dev"
  · subst hr
    rw [multiReg_update_self] at hlook
    cases hlook
    exact rosterSet_ne_nil _ _ _
  · rw [multiReg_update_ne _ _ _ _ hr, multiReg_update_ne _ _ _ _ hr] at hlook
    exact hinv r info hlook
  · subst hr
    rw [multiReg_update_self] at hlook
    cases hlook
    exact rosterSet_ne_nil _ _ _
  · rw [multiReg_update_ne _ _ _ _ hr] at hlook
    exact hinv r info hlook

theorem handleMultiAction_fst (R : MultiReg) (sid room payload : String) (hasAck : Bool)
    (now : Nat) : (handleMultiAction R sid room payload hasAck now).1 = R := by
  rcases h1 : R room with _ | info
  · simp [handleMultiAction, h1]
  · rcases h2 : rosterGet info.roster sid with _ | me
    · simp [handleMultiAction, h1, h2]
    · by_cases hrole : me.role = Role.PLAYER <;> simp [handleMultiAction, h1, h2, hrole]

theorem handleSnapPull_fst (R : MultiReg) (sid room : String) :
    (handleSnapPull R sid room).1 = R := by
  rcases h1 : R room with _ | info
  · simp [handleSnapPull, h1]
  · rcases h2 : info.state with _ | st <;> simp [handleSnapPull, h1, h2]

theorem handleSnapPush_preserves (R : MultiReg) (sid room snap : String)
    (hinv : roomsNonempty R) : roomsNonempty (handleSnapPush R sid room snap).1 := by
  intro r info hlook
  rcases hR : R room with _ | info0
  · simp only [handleSnapPush, hR] at hlook
    exact hinv r info hlook
  · rcases hme : rosterGet info0.roster sid with _ | me
    · simp only [handleSnapPush, hR, hme] at hlook
      exact hinv r info hlook
    · by_cases hrole : me.role = Role.PLAYER
      · simp only [handleSnapPush, hR, hme, hrole, if_true] at hlook
        by_cases hr : r = room
        · subst hr
          rw [multiReg_update_self] at hlook
          cases hlook
          exact hinv r info0 hR
        · rw [multiReg_update_ne _ _ _ _ hr] at hlook
          exact hinv r info hlook
      · simp only [handleSnapPush, hR, hme, hrole, if_neg hrole, if_false] at hlook
        exact hinv r info hlook

theorem handleDisconnect_preserves (R : MultiReg) (sid room : String)
    (hinv : roomsNonempty R) : roomsNonempty (handleDisconnect R sid room).1 := by
  intro r info hlook
  rcases hR : R room with _ | info0
  · simp only [handleDisconnect, hR] at hlook
    exact hinv r info hlook
  · rcases hemp : (info0.roster.filter (fun e => e.1 ≠ sid)).isEmpty with _ | _ <;>
      simp only [handleDisconnect, hR, hemp, Bool.false_eq_true, if_false, if_true] at hlook <;>
      by_cases hr : r = room
    · subst hr
      rw [multiReg_update_self] at hlook
      cases hlook
      intro hnil
      have hnil2 : List.filter (fun e => decide (e.1 ≠ sid)) info0.roster = [] := hnil
      rw [hnil2] at hemp
      simp at hemp
    · rw [multiReg_update_ne _ _ _ _ hr] at hlook
      exact hinv r info hlook
    · subst hr
      rw [multiReg_update_self] at hlook
      exact Option.noConfusion hlook
    · rw [multiReg_update_ne _ _ _ _ hr] at hlook
      exact hinv r info hlook

theorem mstep_preserves (cfg : Cfg) (hcfg : cfg.maxSpec = none) (R : MultiReg) (ev : MEvent)
    (hinv : roomsNonempty R) : roomsNonempty (mstep cfg R ev).1 := by
  cases ev with
  | connect sid roomQ nameQ roleQ =>
    exact handleConnect_preserves cfg R sid roomQ nameQ roleQ hcfg hinv
  | act sid room payload hasAck now =>
    simpa [mstep, handleMultiAction_fst] using hinv
  | snapPush sid room snap =>
    exact handleSnapPush_preserves R sid room snap hinv
  | snapPull sid room =>
    simpa [mstep, handleSnapPull_fst] using hinv
  | disconnect sid room =>
    exact handleDisconnect_preserves R sid room hinv

theorem mrun_preserves (cfg : Cfg) (hcfg : cfg.maxSpec = none) (evs : List MEvent) :
    ∀ R : MultiReg, roomsNonempty R → roomsNonempty (mrun cfg R evs) := by
  induction evs with
  | nil => intro R h; exact h
  | cons ev rest ih =>
    intro R h
    exact ih (mstep cfg R ev).1 (mstep_preserves cfg hcfg R ev h)

/-- **C6, counterexample.**  The claim says every malformed or missing payload
field is tolerated by coercion to a safe default, naming "a missing shuffle
path" as an example; but `SHUFFLE` with no `path` throws a TypeError at
`a.path.split('.')` (server.js line 120), so processing such an action does
throw. -/
theorem claim6_counterexample :
    applyAction entropy0 makeInitialState { type := "SHUFFLE" } = Except.error "TypeError" := rfl

set_option maxHeartbeats 1600000 in
/-- **C6, amended.**  The reducer throws exactly on the payloads `wfAction`
rejects — a missing/invalid `player` on a zone move, `MULLIGAN` or `REFRESH`,
a missing `SHUFFLE` path, a missing `REVEAL_LIFE` card list or a non-empty
card list with an invalid player; all other payloads are processed without
throwing, and in particular an absent or non-numeric `DON_SET` value behaves
exactly like the value `0` (the `|0` coercion). -/
theorem claim6_throw_characterization :
    (∀ (e : Nat → Nat) (s : GameState) (a : ActionMsg),
        (applyAction e s a).isOk = wfAction a) ∧
    (∀ (e : Nat → Nat) (s : GameState) (a : ActionMsg),
        a.type = "DON_SET" → a.value = none →
        applyAction e s a = applyAction e s { a with value := some 0 }) := by
  constructor
  · intro e s a
    by_cases h1 : a.type = "DRAW_TO_HAND"
    case pos => simp only [applyAction, wfAction, h1, String.reduceEq, reduceIte]
                rcases a.player with _ | p <;> rfl
    case neg =>
    by_cases h2 : a.type = "DECK_TO_LIFE_TOP"
    case pos => simp only [applyAction, wfAction, h2, String.reduceEq, reduceIte]
                rcases a.player with _ | p <;> rfl
    case neg =>
    by_cases h3 : a.type = "DECK_TO_TRASH"
    case pos => simp only [applyAction, wfAction, h3, String.reduceEq, reduceIte]
                rcases a.player with _ | p <;> rfl
    case neg =>
    by_cases h4 : a.type = "LIFE_TO_HAND"
    case pos => simp only [applyAction, wfAction, h4, String.reduceEq, reduceIte]
                rcases a.player with _ | p <;> rfl
    case neg =>
    by_cases h5 : a.type = "LIFE_TO_TRASH"
    case pos => simp only [applyAction, wfAction, h5, String.reduceEq, reduceIte]
                rcases a.player with _ | p <;> rfl
    case neg =>
    by_cases h6 : a.type = "DON_SET"
    case pos => simp only [applyAction, wfAction, h6, String.reduceEq, reduceIte]
                rcases a.player with _ | p <;> rfl
    case neg =>
    by_cases h7 : a.type = "SHUFFLE"
    case pos => simp only [applyAction, wfAction, h7, String.reduceEq, reduceIte]
                rcases a.path with _ | pa <;> rfl
    case neg =>
    by_cases h8 : a.type = "MULLIGAN"
    case pos => simp only [applyAction, wfAction, h8, String.reduceEq, reduceIte]
                rcases a.player with _ | p <;> rfl
    case neg =>
    by_cases h9 : a.type = "REFRESH"
    case pos => simp only [applyAction, wfAction, h9, String.reduceEq, reduceIte]
                rcases a.player with _ | p <;> rfl
    case neg =>
    by_cases h10 : a.type = "REVEAL_LIFE"
    case pos =>
      simp only [applyAction, wfAction, h10, String.reduceEq, reduceIte]
      rcases hc : a.cards with _ | cs
      · rfl
      · rcases a.player with _ | p
        · by_cases hcs : cs = [] <;> simp [Except.isOk, Except.toBool, hcs]
        · rfl
    case neg =>
      simp only [applyAction, wfAction, h1, h2, h3, h4, h5, h6, h7, h8, h9, h10, reduceIte]
      rfl
  · intro e s a ht hv
    rcases hp : a.player with _ | p <;>
      simp only [applyAction, ht, hv, hp, String.reduceEq, reduceIte, caseDonSet]

/-- **C6, witness.**  A `DON_SET` with an absent `value` is processed like
`value = 0`. -/
theorem claim6_witness :
    applyAction entropy0 makeInitialState
        { type := "DON_SET", player := some Player.A, target := some "act" } =
      applyAction entropy0 makeInitialState
        { type := "DON_SET", player := some Player.A, target := some "act",
          value := some 0 } :=
  claim6_throw_characterization.2 entropy0 makeInitialState
    { type := "DON_SET", player := some Player.A, target := some "act" } rfl rfl

/-- **C2.**  Every move-top action (deck→hand, deck→life, deck→trash,
life→hand, life→trash), on either side: with a non-empty source zone, the
reducer pops the source's first element, pushes it onto the front of the
destination, decrements the source's mirrored count and increments the
destination's by one, everything else unchanged (the stated full-state
equality); with an empty source zone the state is returned unchanged; and the
two moves out of the life zone additionally delete the moved reference from
that side's life reveal-set. -/
theorem claim2_move_top (e : Nat → Nat) (s : GameState) (p : Player) :
    (∀ top rest, s.deckImages.get p = top :: rest →
        applyAction e s (moveAct "DRAW_TO_HAND" p) = Except.ok
          { s with deckImages := s.deckImages.set p rest,
                   handImages := s.handImages.set p (top :: s.handImages.get p),
                   deckCounts := s.deckCounts.set p (s.deckCounts.get p - 1),
                   handCounts := s.handCounts.set p (s.handCounts.get p + 1) }) ∧
    (s.deckImages.get p = [] →
        applyAction e s (moveAct "DRAW_TO_HAND" p) = Except.ok s) ∧
    (∀ top rest, s.deckImages.get p = top :: rest →
        applyAction e s (moveAct "DECK_TO_LIFE_TOP" p) = Except.ok
          { s with deckImages := s.deckImages.set p rest,
                   lifeImages := s.lifeImages.set p (top :: s.lifeImages.get p),
                   deckCounts := s.deckCounts.set p (s.deckCounts.get p - 1),
                   lifeCounts := s.lifeCounts.set p (s.lifeCounts.get p + 1) }) ∧
    (s.deckImages.get p = [] →
        applyAction e s (moveAct "DECK_TO_LIFE_TOP" p) = Except.ok s) ∧
    (∀ top rest, s.deckImages.get p = top :: rest →
        applyAction e s (moveAct "DECK_TO_TRASH" p) = Except.ok
          { s with deckImages := s.deckImages.set p rest,
                   trashImages := s.trashImages.set p (top :: s.trashImages.get p),
                   deckCounts := s.deckCounts.set p (s.deckCounts.get p - 1),
                   trashCounts := s.trashCounts.set p (s.trashCounts.get p + 1) }) ∧
    (s.deckImages.get p = [] →
        applyAction e s (moveAct "DECK_TO_TRASH" p) = Except.ok s) ∧
    (∀ top rest, s.lifeImages.get p = top :: rest →
        applyAction e s (moveAct "LIFE_TO_HAND" p) = Except.ok
          { s with lifeImages := s.lifeImages.set p rest,
                   handImages := s.handImages.set p (top :: s.handImages.get p),
                   lifeCounts := s.lifeCounts.set p (s.lifeCounts.get p - 1),
                   handCounts := s.handCounts.set p (s.handCounts.get p + 1),
                   revealedLife :=
                     s.revealedLife.set p (setDelete (s.revealedLife.get p) top) }) ∧
    (s.lifeImages.get p = [] →
        applyAction e s (moveAct "LIFE_TO_HAND" p) = Except.ok s) ∧
    (∀ top rest, s.lifeImages.get p = top :: rest →
        applyAction e s (moveAct "LIFE_TO_TRASH" p) = Except.ok
          { s with lifeImages := s.lifeImages.set p rest,
                   trashImages := s.trashImages.set p (top :: s.trashImages.get p),
                   lifeCounts := s.lifeCounts.set p (s.lifeCounts.get p - 1),
                   trashCounts := s.trashCounts.set p (s.trashCounts.get p + 1),
                   revealedLife :=
                     s.revealedLife.set p (setDelete (s.revealedLife.get p) top) }) ∧
    (s.lifeImages.get p = [] →
        applyAction e s (moveAct "LIFE_TO_TRASH" p) = Except.ok s) := by
  refine ⟨?_, ?_, ?_, ?_, ?_, ?_, ?_, ?_, ?_, ?_⟩ <;>
    first
      | (intro top rest h
         simp [applyAction, moveAct, caseDraw, caseDeckLife, caseDeckTrash, caseLifeHand,
           caseLifeTrash, h])
      | (intro h
         simp [applyAction, moveAct, caseDraw, caseDeckLife, caseDeckTrash, caseLifeHand,
           caseLifeTrash, h])

/-- **C2, witness.**  Concrete instances: a draw from a two-card deck, a draw
from an empty deck (side B), and a life→hand move that purges the reveal-set. -/
theorem claim2_witness :
    applyAction entropy0 moveCexState (moveAct "DRAW_TO_HAND" Player.A) = Except.ok
      { moveCexState with
          deckImages := moveCexState.deckImages.set Player.A ["d2"],
          handImages := moveCexState.handImages.set Player.A ["d1"],
          deckCounts := moveCexState.deckCounts.set Player.A 1,
          handCounts := moveCexState.handCounts.set Player.A 1 } ∧
    applyAction entropy0 moveCexState (moveAct "DRAW_TO_HAND" Player.B) =
      Except.ok moveCexState ∧
    applyAction entropy0 moveCexState (moveAct "LIFE_TO_HAND" Player.A) = Except.ok
      { moveCexState with
          lifeImages := moveCexState.lifeImages.set Player.A ["y"],
          handImages := moveCexState.handImages.set Player.A ["x"],
          lifeCounts := moveCexState.lifeCounts.set Player.A 1,
          handCounts := moveCexState.handCounts.set Player.A 1,
          revealedLife := moveCexState.revealedLife.set Player.A [] } := by
  refine ⟨?_, ?_, ?_⟩
  · have h := (claim2_move_top entropy0 moveCexState Player.A).1 "d1" ["d2"] rfl
    exact h
  · exact (claim2_move_top entropy0 moveCexState Player.B).2.1 rfl
  · have h := (claim2_move_top entropy0 moveCexState Player.A).2.2.2.2.2.2.1 "x" ["y"] rfl
    exact h

/-- **C5.**  Unknown action tags are reducer no-ops; move-top actions on an
empty source zone are reducer no-ops; and an accepted no-op still advances the
stored room version by exactly one. -/
theorem claim5_noop_accepted :
    (∀ (e : Nat → Nat) (s : GameState) (a : ActionMsg),
        a.type ∉ knownTypes → applyAction e s a = Except.ok s) ∧
    (∀ (e : Nat → Nat) (s : GameState) (p : Player),
        s.deckImages.get p = [] →
          applyAction e s (moveAct "DRAW_TO_HAND" p) = Except.ok s ∧
          applyAction e s (moveAct "DECK_TO_LIFE_TOP" p) = Except.ok s ∧
          applyAction e s (moveAct "DECK_TO_TRASH" p) = Except.ok s) ∧
    (∀ (e : Nat → Nat) (s : GameState) (p : Player),
        s.lifeImages.get p = [] →
          applyAction e s (moveAct "LIFE_TO_HAND" p) = Except.ok s ∧
          applyAction e s (moveAct "LIFE_TO_TRASH" p) = Except.ok s) ∧
    (∀ (e : Nat → Nat) (R : ProtoReg) (a : ActionMsg) (s0 : GameState),
        R "game-1" = some s0 → applyAction e s0 a = Except.ok s0 →
        (protoAction e R a) "game-1" = some { s0 with version := s0.version + 1 }) := by
  refine ⟨?_, ?_, ?_, ?_⟩
  · intro e s a h
    simp only [knownTypes, List.mem_cons, List.not_mem_nil, or_false, not_or] at h
    obtain ⟨h1, h2, h3, h4, h5, h6, h7, h8, h9, h10⟩ := h
    simp only [applyAction, h1, h2, h3, h4, h5, h6, h7, h8, h9, h10, reduceIte]
  · intro e s p h
    refine ⟨?_, ?_, ?_⟩ <;>
      simp [applyAction, moveAct, caseDraw, caseDeckLife, caseDeckTrash, h]
  · intro e s p h
    refine ⟨?_, ?_⟩ <;>
      simp [applyAction, moveAct, caseLifeHand, caseLifeTrash, h]
  · intro e R a s0 h0 ha
    have hg : protoGetRoom R "game-1" = (R, s0) := protoGetRoom_of_some R _ s0 h0
    have ha2 : applyAction e (protoGetRoom R "game-1").2 a = Except.ok s0 := by
      rw [hg]; exact ha
    have hres := protoAction_lookup_ok e R a s0 ha2
    rw [hg] at hres
    exact hres

/-- **C5, witness.**  An unknown tag, two empty-source moves, and a no-op
action advancing the stored version from 0 to 1. -/
theorem claim5_witness :
    applyAction entropy0 makeInitialState { type := "NOP" } = Except.ok makeInitialState ∧
    applyAction entropy0 moveCexState (moveAct "DRAW_TO_HAND" Player.B) =
      Except.ok moveCexState ∧
    applyAction entropy0 moveCexState (moveAct "LIFE_TO_TRASH" Player.B) =
      Except.ok moveCexState ∧
    (protoAction entropy0 (protoConnect (fun _ => none)) { type := "NOP" }) "game-1" =
      some { makeInitialState with version := makeInitialState.version + 1 } := by
  refine ⟨?_, ?_, ?_, ?_⟩
  · exact claim5_noop_accepted.1 entropy0 makeInitialState { type := "NOP" } (by decide)
  · exact (claim5_noop_accepted.2.1 entropy0 moveCexState Player.B rfl).1
  · exact (claim5_noop_accepted.2.2.1 entropy0 moveCexState Player.B rfl).2
  · exact claim5_noop_accepted.2.2.2 entropy0 (protoConnect (fun _ => none)) { type := "NOP" }
      makeInitialState rfl rfl

/-- **C1.**  In onpc-proto: an action whose reducer application returns (the
accepted case, no-ops included) leaves the room's stored version at exactly
one more than before, and over any event trace an existing room survives with
a version that never decreases (rooms are never removed, so it exists with a
version at least as large for the rest of the trace). -/
theorem claim1_version_monotonic :
    (∀ (e : Nat → Nat) (R : ProtoReg) (a : ActionMsg) (s0 s2 : GameState),
        R "game-1" = some s0 → applyAction e s0 a = Except.ok s2 →
        ((protoAction e R a) "game-1").map GameState.version = some (s0.version + 1)) ∧
    (∀ (evs : List PEvent) (R : ProtoReg) (r : String) (s0 : GameState),
        R r = some s0 →
        ∃ s1, (protoRun R evs) r = some s1 ∧ s0.version ≤ s1.version) := by
  constructor
  · intro e R a s0 s2 h0 ha
    have hg : protoGetRoom R "game-1" = (R, s0) := protoGetRoom_of_some R _ s0 h0
    have ha2 : applyAction e (protoGetRoom R "game-1").2 a = Except.ok s2 := by
      rw [hg]; exact ha
    rw [protoAction_lookup_ok e R a s2 ha2, hg]
    rfl
  · exact protoRun_mono

/-- **C1, witness.**  From the freshly created room (version 0), one accepted
no-op action takes the stored version to exactly 1, and the trace form holds
on a one-action trace. -/
theorem claim1_witness :
    ((protoAction entropy0 (protoConnect (fun _ => none)) { type := "XX" }) "game-1").map
        GameState.version = some 1 ∧
    ∃ s1, (protoRun (protoConnect (fun _ => none))
        [PEvent.act { type := "XX" } entropy0]) "game-1" = some s1 ∧
      makeInitialState.version ≤ s1.version := by
  constructor
  · exact claim1_version_monotonic.1 entropy0 (protoConnect (fun _ => none)) { type := "XX" }
      makeInitialState makeInitialState rfl rfl
  · exact claim1_version_monotonic.2 [PEvent.act { type := "XX" } entropy0]
      (protoConnect (fun _ => none)) "game-1" makeInitialState rfl

/-- **C7, counterexample.**  With side A at donDeck=2, donAct=9, donRest=0
(total 11, reachable via two DON_SETs from the initial state), REFRESH leaves
donDeck=0, donAct=10, donRest=0 (total 10): the transferred amount is clamped
to reserve availability only, not to the [0,10] active ceiling, so a unit is
lost — refuting the claim's "so no units are lost". -/
theorem claim7_counterexample :
    (applyAction entropy0 refreshCexState (moveAct "REFRESH" Player.A)).map
        (fun s2 => s2.donDeck.get Player.A + s2.donAct.get Player.A +
          s2.donRest.get Player.A) = Except.ok 10 ∧
    refreshCexState.donDeck.get Player.A + refreshCexState.donAct.get Player.A +
        refreshCexState.donRest.get Player.A = 11 := ⟨rfl, rfl⟩

/-- **C7, amended.**  REFRESH resets the side's rested pool to 0, removes
`mv = min(2, reserve)` from the reserve pool and sets the active pool to
`clamp(active + mv, 0, 10)` — clamped to reserve availability but not to the
active ceiling, so units above the ceiling are lost — then performs one
move-top deck→hand operation if the deck is non-empty. -/
theorem claim7_refresh_semantics (e : Nat → Nat) (s : GameState) (p : Player) :
    (s.deckImages.get p = [] →
        applyAction e s (moveAct "REFRESH" p) = Except.ok (refreshExpected s p)) ∧
    (∀ top rest, s.deckImages.get p = top :: rest →
        applyAction e s (moveAct "REFRESH" p) = Except.ok
          { refreshExpected s p with
              deckImages := s.deckImages.set p rest,
              handImages := s.handImages.set p (top :: s.handImages.get p),
              deckCounts := s.deckCounts.set p (s.deckCounts.get p - 1),
              handCounts := s.handCounts.set p (s.handCounts.get p + 1) }) := by
  constructor
  · intro h
    simp [applyAction, moveAct, caseRefresh, refreshExpected, h]
  · intro top rest h
    simp [applyAction, moveAct, caseRefresh, refreshExpected, h]

/-- **C7, witness.**  REFRESH on side B (empty deck: pools only) and on side A
(two-card deck: pools plus one draw) of the small concrete document. -/
theorem claim7_witness :
    applyAction entropy0 moveCexState (moveAct "REFRESH" Player.B) =
      Except.ok (refreshExpected moveCexState Player.B) ∧
    applyAction entropy0 moveCexState (moveAct "REFRESH" Player.A) = Except.ok
      { refreshExpected moveCexState Player.A with
          deckImages := moveCexState.deckImages.set Player.A ["d2"],
          handImages := moveCexState.handImages.set Player.A ["d1"],
          deckCounts := moveCexState.deckCounts.set Player.A 1,
          handCounts := moveCexState.handCounts.set Player.A 1 } := by
  constructor
  · exact (claim7_refresh_semantics entropy0 moveCexState Player.B).1 rfl
  · exact (claim7_refresh_semantics entropy0 moveCexState Player.A).2 "d1" ["d2"] rfl

theorem ArrLoc.read_write_ne (l1 l2 : ArrLoc) (s : GameState) (v : List l1.elemTy)
    (h : l2 ≠ l1) : l2.read (l1.write s v) = l2.read s := by
  cases l1 <;> cases l2 <;>
    first
      | rfl
      | exact absurd rfl h
      | (rename_i p q
         exact Pair.get_set_ne _ p q v (fun hqp => h (by rw [hqp])))

/-- **C10.**  A SHUFFLE whose dot-separated path resolves to one of the
document's arrays (the `players` array, a zone sequence, or a board `chara`
slot array of either side) replaces exactly that array with a permutation of
itself — the result is the single-location write `loc.write`, every other
array location reads unchanged — and a path resolving to a non-array value or
to nothing leaves the whole state unchanged. -/
theorem claim10_shuffle_frame (e : Nat → Nat) (s : GameState) (path : String) :
    (∀ loc : ArrLoc, resolveArr (jsSplitDot path) = some loc →
        applyAction e s { type := "SHUFFLE", path := some path } =
          Except.ok (loc.write s (fisherYates e (loc.read s))) ∧
        (fisherYates e (loc.read s)).Perm (loc.read s) ∧
        (∀ loc2 : ArrLoc, loc2 ≠ loc →
            loc2.read (loc.write s (fisherYates e (loc.read s))) = loc2.read s)) ∧
    (resolveArr (jsSplitDot path) = none →
        applyAction e s { type := "SHUFFLE", path := some path } = Except.ok s) := by
  constructor
  · intro loc h
    refine ⟨?_, fisherYates_perm e _, ?_⟩
    · simp [applyAction, caseShuffle, h]
    · intro loc2 h2
      exact ArrLoc.read_write_ne loc loc2 s _ h2
  · intro h
    simp [applyAction, caseShuffle, h]

/-- **C10, witness.**  Path `deckImages.A` shuffles exactly side A's deck (a
permutation; side A's hand reads unchanged), and path `version` (a non-array
field) leaves the state unchanged. -/
theorem claim10_witness :
    applyAction entropy0 moveCexState { type := "SHUFFLE", path := some "deckImages.A" } =
      Except.ok ((ArrLoc.deck Player.A).write moveCexState
        (fisherYates entropy0 ((ArrLoc.deck Player.A).read moveCexState))) ∧
    (fisherYates entropy0 ((ArrLoc.deck Player.A).read moveCexState)).Perm
      ((ArrLoc.deck Player.A).read moveCexState) ∧
    (ArrLoc.hand Player.A).read ((ArrLoc.deck Player.A).write moveCexState
        (fisherYates entropy0 ((ArrLoc.deck Player.A).read moveCexState))) =
      (ArrLoc.hand Player.A).read moveCexState ∧
    applyAction entropy0 moveCexState { type := "SHUFFLE", path := some "version" } =
      Except.ok moveCexState := by
  have h := (claim10_shuffle_frame entropy0 moveCexState "deckImages.A").1
    (ArrLoc.deck Player.A) rfl
  exact ⟨h.1, h.2.1, h.2.2 (ArrLoc.hand Player.A) (by decide),
    (claim10_shuffle_frame entropy0 moveCexState "version").2 rfl⟩

theorem rosterGet_mem_keys (ros : List (String × Participant)) (sid : String)
    (me : Participant) (h : rosterGet ros sid = some me) : sid ∈ ros.map Prod.fst := by
  unfold rosterGet at h
  rcases hf : ros.find? (fun e => e.1 = sid) with _ | a
  · rw [hf] at h
    exact Option.noConfusion h
  · have ha := List.find?_some hf
    have hmem := List.mem_of_find?_eq_some hf
    have hfst : a.1 = sid := by simpa using ha
    rw [← hfst]
    exact List.mem_map_of_mem Prod.fst hmem

/-- **C9.**  A connection that is not a seated PLAYER of the room (absent from
the roster, or present with role SPEC): its `action` is answered
`{ok:false, reason:'spectator'}` when an acknowledgement callback exists, no
`action` broadcast is emitted, and the registry (roster and stored document
alike) is unchanged; its `snapshot:push` is silently dropped — no output, no
state change.  (onpc-proto has no roles at all: every connection there is a
player, so the claim is about onpc-multi's handlers.) -/
theorem claim9_spectator_denied (R : MultiReg) (sid room payload snap : String)
    (hasAck : Bool) (now : Nat) (info : RoomInfo)
    (hIn : R room = some info)
    (hrole : ∀ me, rosterGet info.roster sid = some me → me.role ≠ Role.PLAYER) :
    (handleMultiAction R sid room payload hasAck now).1 = R ∧
    (handleMultiAction R sid room payload hasAck now).2 =
      (if hasAck then [MOut.ackTo sid false (some "spectator")] else []) ∧
    handleSnapPush R sid room snap = (R, []) := by
  rcases hme : rosterGet info.roster sid with _ | me
  · refine ⟨handleMultiAction_fst R sid room payload hasAck now, ?_, ?_⟩
    · simp [handleMultiAction, hIn, hme]
    · simp [handleSnapPush, hIn, hme]
  · have hr := hrole me hme
    refine ⟨handleMultiAction_fst R sid room payload hasAck now, ?_, ?_⟩
    · simp [handleMultiAction, hIn, hme, hr]
    · simp [handleSnapPush, hIn, hme, hr]

/-- **C9, witness.**  The spectator `s1` of the concrete room: denied `action`
acknowledgement, no broadcast, dropped `snapshot:push`, registry unchanged. -/
theorem claim9_witness :
    (handleMultiAction specCexReg "s1" "dev" "pay" true 3).1 = specCexReg ∧
    (handleMultiAction specCexReg "s1" "dev" "pay" true 3).2 =
      [MOut.ackTo "s1" false (some "spectator")] ∧
    handleSnapPush specCexReg "s1" "dev" "snap" = (specCexReg, []) := by
  have h := claim9_spectator_denied specCexReg "s1" "dev" "pay" "snap" true 3
    { roster := [("s1", ⟨"a", Role.SPEC, "SPEC1"⟩)], state := none, nextSpecNo := 2 } rfl
    (fun me hme => by
      have h2 : some (⟨"a", Role.SPEC, "SPEC1"⟩ : Participant) = some me := hme
      cases h2
      decide)
  exact ⟨h.1, h.2.1, h.2.2⟩

/-- **C8, counterexample.**  In the concrete two-player room, player `s1`'s
relayed action is emitted with target list `["s1", "s2"]` — the room's entire
membership, **including the sender** (`io.to(roomId).emit`, server.js line 83)
— refuting the claim's "forwards it to every other room member (not back to
the sender)". -/
theorem claim8_counterexample :
    (handleMultiAction relayCexReg "s1" "dev" "pay" true 7).2 =
      [MOut.actionTo ["s1", "s2"] "pay" "s1" 7, MOut.ackTo "s1" true none] ∧
    "s1" ∈ (["s1", "s2"] : List String) := ⟨rfl, by decide⟩

/-- **C8, amended.**  In relay mode, an action submitted by a seated PLAYER is
stamped with the sender's connection id (`_from`) and a receipt timestamp
(`_ts`), emitted to **every** room member — the sender included, since the
sender is registered in the roster — and acknowledged `{ok:true}`; the
registry is unchanged. -/
theorem claim8_relay_broadcast (R : MultiReg) (sid room payload : String) (hasAck : Bool)
    (now : Nat) (info : RoomInfo) (me : Participant)
    (hIn : R room = some info) (hme : rosterGet info.roster sid = some me)
    (hrole : me.role = Role.PLAYER) :
    (handleMultiAction R sid room payload hasAck now).1 = R ∧
    (handleMultiAction R sid room payload hasAck now).2 =
      MOut.actionTo (info.roster.map Prod.fst) payload sid now ::
        (if hasAck then [MOut.ackTo sid true none] else []) ∧
    sid ∈ info.roster.map Prod.fst := by
  refine ⟨handleMultiAction_fst R sid room payload hasAck now, ?_,
    rosterGet_mem_keys _ _ _ hme⟩
  simp [handleMultiAction, hIn, hme, hrole]

/-- **C8, witness.**  Player `s2` of the concrete room: stamped broadcast to
both members (sender included), no ack requested. -/
theorem claim8_witness :
    (handleMultiAction relayCexReg "s2" "dev" "q" false 9).1 = relayCexReg ∧
    (handleMultiAction relayCexReg "s2" "dev" "q" false 9).2 =
      [MOut.actionTo ["s1", "s2"] "q" "s2" 9] ∧
    "s2" ∈ (["s1", "s2"] : List String) := by
  have h := claim8_relay_broadcast relayCexReg "s2" "dev" "q" false 9
    { roster := [("s1", ⟨"a", Role.PLAYER, "P1"⟩), ("s2", ⟨"b", Role.PLAYER, "P2"⟩)],
      state := none, nextSpecNo := 1 } ⟨"b", Role.PLAYER, "P2"⟩ rfl rfl rfl
  exact ⟨h.1, h.2.1, h.2.2⟩

/-- **C4, counterexample.**  With a finite spectator capacity (here
`MAX_SPECTATORS = 0`), a spectator join into a not-yet-existing room first
creates the room (server.js line 40) and is then refused by the capacity check
(line 51) without ever being registered — and the refusal path never installs
a disconnect handler, so the freshly created room stays in the registry with
an **empty roster**, refuting "a room's roster is empty iff the room is absent
from the registry" as a property of every reachable state. -/
theorem claim4_counterexample :
    (mstep { maxSpec := some 0 } emptyMultiReg
        (MEvent.connect "s1" (some "r") none (some "spec"))).1 "r" =
      some { roster := [], state := none, nextSpecNo := 1 } := rfl

/-- **C4, amended.**  With the default unbounded spectator capacity
(`MAX_SPECTATORS = Infinity`, so no join is ever refused), the invariant
holds: in every state reachable from the empty registry, every room present in
the registry has a non-empty roster (absent rooms trivially have none), and a
disconnect that empties a room's roster removes the room from the registry. -/
theorem claim4_registry_invariant (cfg : Cfg) (hcfg : cfg.maxSpec = none) :
    (∀ (evs : List MEvent) (r : String) (info : RoomInfo),
        (mrun cfg emptyMultiReg evs) r = some info → info.roster ≠ []) ∧
    (∀ (R : MultiReg) (sid room : String) (info : RoomInfo),
        R room = some info →
        (info.roster.filter (fun e2 => e2.1 ≠ sid)).isEmpty = true →
        (handleDisconnect R sid room).1 room = none) := by
  constructor
  · intro evs r info h
    exact mrun_preserves cfg hcfg evs emptyMultiReg
      (fun r2 i2 h2 => Option.noConfusion h2) r info h
  · intro R sid room info hIn hemp
    simp only [ne_eq] at hemp
    simp only [handleDisconnect, hIn, ne_eq]
    rw [if_pos hemp, multiReg_update_self]

/-- **C4, witness.**  After one player joins room `r` from the empty registry
(default capacity), the room is present with a one-entry roster; that player's
disconnect removes the room from the registry. -/
theorem claim4_witness :
    (mrun { maxSpec := none } emptyMultiReg
        [MEvent.connect "s1" (some "r") none none] "r" =
      some { roster := [("s1", ⟨"anon", Role.PLAYER, "P1"⟩)], state := none,
             nextSpecNo := 1 } ∧
      ({ roster := [("s1", ⟨"anon", Role.PLAYER, "P1"⟩)], state := none,
         nextSpecNo := 1 } : RoomInfo).roster ≠ []) ∧
    (handleDisconnect (mrun { maxSpec := none } emptyMultiReg
        [MEvent.connect "s1" (some "r") none none]) "s1" "r").1 "r" = none := by
  refine ⟨⟨rfl, ?_⟩, ?_⟩
  · exact (claim4_registry_invariant { maxSpec := none } rfl).1
      [MEvent.connect "s1" (some "r") none none] "r" _ rfl
  · exact (claim4_registry_invariant { maxSpec := none } rfl).2
      (mrun { maxSpec := none } emptyMultiReg [MEvent.connect "s1" (some "r") none none])
      "s1" "r"
      { roster := [("s1", ⟨"anon", Role.PLAYER, "P1"⟩)], state := none, nextSpecNo := 1 }
      rfl rfl

set_option maxHeartbeats 1000000 in
/-- **C3.**  From a fresh room: the first and second player-eligible joins (no
explicit spectator request, and fewer than two current players) are seated as
PLAYER P1 and PLAYER P2 in join order; the third such join — both seats taken
— becomes SPEC with seat SPEC1; and, in general, a join that explicitly
requests spectator (and is not refused by capacity) is seated as SPEC with
seat `SPEC<nextSpecNo>` after which the counter is incremented. -/
theorem claim3_seat_assignment (cfg : Cfg) (R : MultiReg) (r : String)
    (s1 s2 s3 : String) (n1 n2 n3 q1 q2 q3 : Option String)
    (hR : R r = none) (hcap : cfg.maxSpec ≠ some 0)
    (hq1 : q1 ≠ some "spec") (hq2 : q2 ≠ some "spec") (hq3 : q3 ≠ some "spec")
    (h12 : s1 ≠ s2) (h13 : s1 ≠ s3) (h23 : s2 ≠ s3) :
    (handleConnect cfg R s1 (some r) n1 q1).2.head? =
      some (MOut.helloTo s1 r (resolveName n1) Role.PLAYER "P1") ∧
    (handleConnect cfg (handleConnect cfg R s1 (some r) n1 q1).1 s2 (some r) n2 q2).2.head? =
      some (MOut.helloTo s2 r (resolveName n2) Role.PLAYER "P2") ∧
    (handleConnect cfg (handleConnect cfg (handleConnect cfg R s1 (some r) n1 q1).1 s2
        (some r) n2 q2).1 s3 (some r) n3 q3).2.head? =
      some (MOut.helloTo s3 r (resolveName n3) Role.SPEC "SPEC1") ∧
    (∀ (R2 : MultiReg) (r2 sid : String) (info : RoomInfo) (nq : Option String),
        R2 r2 = some info → specFull cfg info = false →
        (handleConnect cfg R2 sid (some r2) nq (some "spec")).2.head? =
          some (MOut.helloTo sid r2 (resolveName nq) Role.SPEC
            ("SPEC" ++ toString info.nextSpecNo)) ∧
        ((handleConnect cfg R2 sid (some r2) nq (some "spec")).1 r2).map
            RoomInfo.nextSpecNo = some (info.nextSpecNo + 1)) := by
  have hI1 : handleConnect cfg R s1 (some r) n1 q1 =
      ((R.update r (some createRoomInfo)).update r
        (some { roster := [(s1, ⟨resolveName n1, Role.PLAYER, "P1"⟩)],
                state := none, nextSpecNo := 1 }),
       [MOut.helloTo s1 r (resolveName n1) Role.PLAYER "P1",
        MOut.rosterTo r [(s1, ⟨resolveName n1, Role.PLAYER, "P1"⟩)]]) := by
    simp [handleConnect, hR, hq1, getPlayers, createRoomInfo, rosterSet, MultiReg.update]
  have hI2 : handleConnect cfg (handleConnect cfg R s1 (some r) n1 q1).1 s2 (some r) n2 q2 =
      (((R.update r (some createRoomInfo)).update r
          (some { roster := [(s1, ⟨resolveName n1, Role.PLAYER, "P1"⟩)],
                  state := none, nextSpecNo := 1 })).update r
        (some { roster := [(s1, ⟨resolveName n1, Role.PLAYER, "P1"⟩),
                           (s2, ⟨resolveName n2, Role.PLAYER, "P2"⟩)],
                state := none, nextSpecNo := 1 }),
       [MOut.helloTo s2 r (resolveName n2) Role.PLAYER "P2",
        MOut.rosterTo r [(s1, ⟨resolveName n1, Role.PLAYER, "P1"⟩),
                         (s2, ⟨resolveName n2, Role.PLAYER, "P2"⟩)]]) := by
    rw [hI1]
    simp [handleConnect, getPlayers, rosterSet, MultiReg.update, h12, hq2]
  have hful : specFull cfg
      { roster := [(s1, ⟨resolveName n1, Role.PLAYER, "P1"⟩),
                   (s2, ⟨resolveName n2, Role.PLAYER, "P2"⟩)],
        state := none, nextSpecNo := 1 } = false := by
    rcases hms : cfg.maxSpec with _ | m
    · simp [specFull, hms]
    · have hm : m ≠ 0 := fun h0 => hcap (by rw [hms, h0])
      simp [specFull, hms, countSpectators]
      omega
  have hI3 : handleConnect cfg (handleConnect cfg (handleConnect cfg R s1 (some r) n1 q1).1
      s2 (some r) n2 q2).1 s3 (some r) n3 q3 =
      ((((R.update r (some createRoomInfo)).update r
          (some { roster := [(s1, ⟨resolveName n1, Role.PLAYER, "P1"⟩)],
                  state := none, nextSpecNo := 1 })).update r
          (some { roster := [(s1, ⟨resolveName n1, Role.PLAYER, "P1"⟩),
                             (s2, ⟨resolveName n2, Role.PLAYER, "P2"⟩)],
                  state := none, nextSpecNo := 1 })).update r
        (some { roster := [(s1, ⟨resolveName n1, Role.PLAYER, "P1"⟩),
                           (s2, ⟨resolveName n2, Role.PLAYER, "P2"⟩),
                           (s3, ⟨resolveName n3, Role.SPEC, "SPEC" ++ toString 1⟩)],
                state := none, nextSpecNo := 2 }),
       [MOut.helloTo s3 r (resolveName n3) Role.SPEC ("SPEC" ++ toString 1),
        MOut.rosterTo r [(s1, ⟨resolveName n1, Role.PLAYER, "P1"⟩),
                         (s2, ⟨resolveName n2, Role.PLAYER, "P2"⟩),
                         (s3, ⟨resolveName n3, Role.SPEC, "SPEC" ++ toString 1⟩)]]) := by
    rw [hI2]
    simp [handleConnect, getPlayers, rosterSet, MultiReg.update, hful, h13, h23]
  refine ⟨?_, ?_, ?_, ?_⟩
  · rw [hI1]
    rfl
  · rw [hI2]
    rfl
  · rw [hI3]
    rfl
  · intro R2 r2 sid info nq hIn hful2
    constructor
    · simp [handleConnect, hIn, hful2, rosterSet, MultiReg.update]
    · simp [handleConnect, hIn, hful2, rosterSet, MultiReg.update]

/-- **C3, witness.**  Three defaulted joins into a fresh room `dev` seat
P1, P2, then SPEC1; an explicit spectator join into the concrete room whose
counter is 2 is seated SPEC2 and the counter becomes 3. -/
theorem claim3_witness :
    (handleConnect ⟨none⟩ emptyMultiReg "s1" (some "dev") none none).2.head? =
      some (MOut.helloTo "s1" "dev" "anon" Role.PLAYER "P1") ∧
    (handleConnect ⟨none⟩ (handleConnect ⟨none⟩ emptyMultiReg "s1" (some "dev") none none).1
        "s2" (some "dev") none none).2.head? =
      some (MOut.helloTo "s2" "dev" "anon" Role.PLAYER "P2") ∧
    (handleConnect ⟨none⟩ (handleConnect ⟨none⟩ (handleConnect ⟨none⟩ emptyMultiReg "s1"
        (some "dev") none none).1 "s2" (some "dev") none none).1 "s3"
        (some "dev") none none).2.head? =
      some (MOut.helloTo "s3" "dev" "anon" Role.SPEC "SPEC1") ∧
    (handleConnect ⟨none⟩ specCexReg "s9" (some "dev") none (some "spec")).2.head? =
      some (MOut.helloTo "s9" "dev" "anon" Role.SPEC "SPEC2") ∧
    ((handleConnect ⟨none⟩ specCexReg "s9" (some "dev") none (some "spec")).1 "dev").map
        RoomInfo.nextSpecNo = some 3 := by
  have h := claim3_seat_assignment ⟨none⟩ emptyMultiReg "dev" "s1" "s2" "s3"
    none none none none none none rfl (by decide)
    (fun hx => Option.noConfusion hx) (fun hx => Option.noConfusion hx)
    (fun hx => Option.noConfusion hx) (by decide) (by decide) (by decide)
  have h4 := h.2.2.2 specCexReg "dev" "s9"
    { roster := [("s1", ⟨"a", Role.SPEC, "SPEC1"⟩)], state := none, nextSpecNo := 2 }
    none rfl rfl
  exact ⟨h.1, h.2.1, h.2.2.1, h4.1, h4.2⟩
